import Mathlib

/-!
Verification of the `web_gallery` image-gallery application (`src/src/App.jsx`)
against its natural-language specification.

The development shallowly embeds the app's logic:

* the recursive directory scanner `scanDirectory` (lines 28-40) over an
  inductive model of directory trees;
* the asset materializer (the `Promise.all` over `getFile` +
  `URL.createObjectURL`, lines 47-56) as a `List.mapM`-style traversal
  over `Option`;
* the gallery/navigation state (React state `images`, `selectedIndex`,
  the `zoomStates` ref, and the mounted transform state) as a record
  `GState`, with the event handlers as state-transition functions.

Machine strings are modelled as Lean `String`s; JavaScript's
`String.prototype.split` with a one-character separator is translated
as an explicit recursion over the character list.
-/

/-- JavaScript `str.split(sep)` for a one-character separator `sep`,
on the character list of the string.  `split` always yields at least one
(possibly empty) piece; a separator at the front or back contributes an
empty piece, exactly as in JS. -/
def splitOnChar (sep : Char) : List Char → List (List Char)
  | [] => [[]]
  | c :: cs =>
    if c = sep then [] :: splitOnChar sep cs
    else
      match splitOnChar sep cs with
      | [] => [[c]]
      | r :: rs => (c :: r) :: rs

/-- The extension extraction of `App.jsx` line 31:
`entry.name.split('.').pop().toLowerCase()` — the last piece of the
dot-split of the filename, lowercased. -/
def extOf (name : String) : String :=
  String.mk (((splitOnChar '.' name.data).getLastD []).map Char.toLower)

/-- The extension allow-list of `App.jsx` line 25. -/
def allowedExt : List String := ["jpg", "jpeg", "png", "gif", "webp", "bmp"]

/-- A filesystem entry as seen through the directory-handle API: either a
file with a name, or a subdirectory with a name and children. -/
inductive FsEntry where
  | file (name : String)
  | dir (name : String) (children : List FsEntry)
deriving Repr

/-- The recursive scanner `scanDirectory` of `App.jsx` lines 28-40, acting
on the child list of a directory handle: files whose extension is in the
allow-list are pushed in traversal order; subdirectories are recursed
into in place. The result is the list of collected file names (the code
stores `{handle, name}` pairs; only the name matters to the model). -/
def scanDir : List FsEntry → List String
  | [] => []
  | .file n :: es =>
      (if allowedExt.contains (extOf n) then [n] else []) ++ scanDir es
  | .dir _ cs :: es => scanDir cs ++ scanDir es

/-- All file names in a list of filesystem entries, at any depth, in
traversal order (the universe the scanner filters from). -/
def filesDir : List FsEntry → List String
  | [] => []
  | .file n :: es => n :: filesDir es
  | .dir _ cs :: es => filesDir cs ++ filesDir es

/-- The pan/zoom parameters of the mounted transform component
(`transformState` of `react-zoom-pan-pinch`): `{scale, positionX,
positionY}`, as stored at `App.jsx` line 81. -/
structure ZoomState where
  scale : Int
  positionX : Int
  positionY : Int
deriving DecidableEq, Repr

/-- The default pan/zoom parameters of `App.jsx` line 108. -/
def defaultZoom : ZoomState := ⟨1, 0, 0⟩

/-- One materialized gallery entry: the filename together with the blob
URL produced by `URL.createObjectURL` (`App.jsx` lines 50-54; the file
handle itself is irrelevant to the model). -/
structure Asset where
  name : String
  url : String
deriving DecidableEq, Repr

/-- The app's mutable session state:
`images` / `selectedIndex` / `loading` are the React state of lines 7-9,
`zoomStates` is the sparse per-index zoom memory ref of line 12,
`viewer` is the transform state of the currently mounted viewer (only
meaningful while `selectedIndex` is not `none`; the wrapper is remounted
with the initial parameters on every index change via `key={selectedIndex}`),
and `revoked` records every blob URL revoked so far by the cleanup
effect of lines 71-75. -/
structure GState where
  images : List Asset
  selectedIndex : Option Nat
  zoomStates : Nat → Option ZoomState
  viewer : ZoomState
  loading : Bool
  revoked : List String

/-- The state before any interaction: empty gallery, nothing selected,
empty zoom memory. -/
def initGState : GState :=
  { images := [], selectedIndex := none, zoomStates := fun _ => none,
    viewer := defaultZoom, loading := false, revoked := [] }

/-- Model of `initialState` (`App.jsx` lines 106-108): the saved zoom memory for
the selected index if present, else the defaults. -/
def initialStateOf (s : GState) : ZoomState :=
  match s.selectedIndex with
  | some i => (s.zoomStates i).getD defaultZoom
  | none => defaultZoom

/-- Model of `saveCurrentState` (`App.jsx` lines 78-83): if a viewer is mounted
(equivalently, an index is selected), store its current transform state
into the zoom memory at the selected index. -/
def saveCurrentState (s : GState) : GState :=
  match s.selectedIndex with
  | some i =>
      { s with zoomStates := fun j => if j = i then some s.viewer else s.zoomStates j }
  | none => s

/-- Change the selected index. The `TransformWrapper` is keyed on
`selectedIndex`, so it remounts with the initial parameters for the new
selection (any subsequent gesture or `centerView` call is an external
parameter change, modelled by `setViewer`). -/
def setIndex (s : GState) (idx : Option Nat) : GState :=
  let s1 := { s with selectedIndex := idx }
  { s1 with viewer := initialStateOf s1 }

/-- The index update of `handleNext` (`App.jsx` line 87):
`prev + 1 < images.length ? prev + 1 : prev`. -/
def nextIndex (len i : Nat) : Nat := if i + 1 < len then i + 1 else i

/-- The index update of `handlePrev` (`App.jsx` line 92):
`prev - 1 >= 0 ? prev - 1 : prev` (on the nonnegative indices the app
uses, the guard means `1 ≤ i`). -/
def prevIndex (i : Nat) : Nat := if 1 ≤ i then i - 1 else i

/-- Model of `handleNext` (`App.jsx` lines 85-88): save the current transform
state, then advance the selection (clamped). Only invoked while a
selection exists (the next button and the keydown handler both require
it), so the `none` case is a no-op. -/
def handleNext (s : GState) : GState :=
  let s1 := saveCurrentState s
  setIndex s1 (s1.selectedIndex.map (nextIndex s1.images.length))

/-- Model of `handlePrev` (`App.jsx` lines 90-93). -/
def handlePrev (s : GState) : GState :=
  let s1 := saveCurrentState s
  setIndex s1 (s1.selectedIndex.map prevIndex)

/-- A gallery-card click (`App.jsx` line 138): `setSelectedIndex(index)`
with no save; `index` ranges over the rendered cards `0 .. length-1`. -/
def openImage (s : GState) (i : Nat) : GState := setIndex s (some i)

/-- The close button (`App.jsx` line 158) and the Escape key (line 100):
`setSelectedIndex(null)`, with no call to `saveCurrentState`. -/
def closeViewer (s : GState) : GState := setIndex s none

/-- An external pan/zoom parameter change while the viewer is mounted
(gestures and `centerView` are delegated to `react-zoom-pan-pinch`). -/
def setViewer (s : GState) (p : ZoomState) : GState := { s with viewer := p }

/-- The materialization batch of `App.jsx` lines 47-56: `Promise.all`
over one `getFile` + `createObjectURL` per scanned entry, in scan order.
`getUrl name` models the outcome of materializing the entry `name`
(`some url` on success, `none` when `getFile` rejects); `Promise.all`
resolves with the results in input order only when every promise
resolves, and rejects as a whole when any one rejects. -/
def materializeAll (getUrl : String → Option String) :
    List String → Option (List Asset)
  | [] => some []
  | n :: ns =>
    match getUrl n, materializeAll getUrl ns with
    | some u, some rest => some ({ name := n, url := u } :: rest)
    | _, _ => none

/-- Replacing the `images` state (a `setImages` call): the cleanup of the
effect at `App.jsx` lines 71-75 runs for the outgoing list and revokes
every blob URL it holds. -/
def replaceImages (s : GState) (new : List Asset) : GState :=
  { s with images := new, revoked := s.revoked ++ s.images.map Asset.url }

/-- How the external calls of one `handleOpenFolder` run behave:
* `cancelled` — `showDirectoryPicker` rejects with `AbortError` (user
  declined the prompt), before any state was touched;
* `unsupported` — `showDirectoryPicker` itself fails for another reason
  (e.g. the API is missing), also before any state was touched;
* `authorized tree getUrl` — the picker yielded a directory whose
  children are `tree`; `getUrl` gives each scanned entry's
  materialization outcome (`none` = that `getFile` rejects, which makes
  the whole `Promise.all` reject). -/
inductive LoadOutcome where
  | cancelled
  | unsupported
  | authorized (tree : List FsEntry) (getUrl : String → Option String)

/-- Result of one `handleOpenFolder` run: the state afterwards and
whether the `alert` of `App.jsx` line 63 fired. -/
structure LoadResult where
  state : GState
  alerted : Bool

/-- The body of `handleOpenFolder` (`App.jsx` lines 16-68) after the
picker resolved: `setLoading(true)`; `setImages([])` (which lets the
cleanup effect revoke the previous list's URLs); clear the zoom memory;
scan; materialize.  `selectedIndex` is never written. -/
def loadAfterAuth (s : GState) (tree : List FsEntry)
    (getUrl : String → Option String) : LoadResult :=
  let s1 := replaceImages { s with loading := true } []
  let s2 := { s1 with zoomStates := fun _ => none }
  match materializeAll getUrl (scanDir tree) with
  | some assets => ⟨{ replaceImages s2 assets with loading := false }, false⟩
  | none => ⟨{ s2 with loading := false }, true⟩

/-- Model of `handleOpenFolder` (`App.jsx` lines 16-68) as a function of the
outcome of its external calls. On `AbortError` the catch is silent; on
any other picker failure the alert fires but no state was yet touched;
in every case the `finally` clears `loading`. -/
def handleOpenFolder (s : GState) : LoadOutcome → LoadResult
  | .cancelled => ⟨{ s with loading := false }, false⟩
  | .unsupported => ⟨{ s with loading := false }, true⟩
  | .authorized tree getUrl => loadAfterAuth s tree getUrl

/-- A concrete directory tree: `a.png`, `sub/{b.jpg, c.txt}`, `d.gif`
(the spec's scenario tree, plus one more image so three assets load). -/
def exTree : List FsEntry :=
  [.file "a.png", .dir "sub" [.file "b.jpg", .file "c.txt"], .file "d.gif"]

/-- A second tree with a single image, for re-scan scenarios. -/
def exTree2 : List FsEntry := [.file "z.png"]

/-- A materializer in which every `getFile` resolves; the blob URL is a
function of the name only for concreteness. -/
def exUrl : String → Option String := fun n => some ("blob:" ++ n)

/-- A materializer in which every `getFile` rejects. -/
def exUrlFail : String → Option String := fun _ => none

/-- The gallery state holding the three assets of `exTree` in scan
order, with nothing selected and empty zoom memory. -/
def exLoaded : GState :=
  { images := [⟨"a.png", "blob:a.png"⟩, ⟨"b.jpg", "blob:b.jpg"⟩,
               ⟨"d.gif", "blob:d.gif"⟩],
    selectedIndex := none, zoomStates := fun _ => none,
    viewer := defaultZoom, loading := false, revoked := [] }

/-- Viewer open at index 0 of the loaded fixture, with the pan/zoom
parameters changed to `{scale 3, position (5, 7)}`. -/
def exOpen : GState := setViewer (openImage exLoaded 0) ⟨3, 5, 7⟩

/-- Viewer open at the last index (2) of the loaded fixture. -/
def exViewing : GState := openImage exLoaded 2

/-- The GalleryState invariant of the spec: the selected index, when
present, is within the asset list's bounds. -/
def selInBounds (s : GState) : Prop :=
  ∀ i, s.selectedIndex = some i → i < s.images.length

/-- `splitOnChar` never returns the empty list (JS `split` always returns
at least one piece). -/
theorem splitOnChar_ne_nil (sep : Char) (cs : List Char) :
    splitOnChar sep cs ≠ [] := by
  induction cs with
  | nil => simp [splitOnChar]
  | cons c cs ih =>
    simp only [splitOnChar]
    split
    · simp
    · split
      · simp
      · simp

/-- If a name contains no dot, JS `split('.')` returns the whole name as
the single piece. -/
theorem splitOnChar_of_not_mem (sep : Char) (cs : List Char)
    (h : sep ∉ cs) : splitOnChar sep cs = [cs] := by
  induction cs with
  | nil => simp [splitOnChar]
  | cons c cs ih =>
    simp only [List.mem_cons, not_or] at h
    simp [splitOnChar, Ne.symm h.1, ih h.2]

/-- C1. For every directory tree, the scanner's result is exactly the
recursively collected files filtered by the extension allow-list: a name
is in the result iff it is a file name somewhere in the tree whose
extension (as extracted by the code, case-insensitively) is allowed, and
the result keeps traversal order. -/
theorem scanDir_eq_filter_allowed (es : List FsEntry) :
    scanDir es = (filesDir es).filter (fun n => allowedExt.contains (extOf n)) ∧
    ∀ n : String, n ∈ scanDir es ↔
      n ∈ filesDir es ∧ allowedExt.contains (extOf n) := by
  have main : ∀ es : List FsEntry,
      scanDir es = (filesDir es).filter (fun n => allowedExt.contains (extOf n)) := by
    intro es
    induction es using scanDir.induct with
    | case1 => simp [scanDir, filesDir]
    | case2 n es ih =>
      by_cases h : extOf n ∈ allowedExt <;>
        simp [scanDir, filesDir, ih, h]
    | case3 n cs es ih1 ih2 =>
      simp [scanDir, filesDir, ih1, ih2]
  refine ⟨main es, fun n => ?_⟩
  rw [main es]
  simp [List.mem_filter]

/-- C10. A filename with no `.` is its own extension under the code's
`split('.').pop()` extraction: a file literally named `png` is included
in the scan result, and a dotfile `.jpg` is included because the piece
after its final `.` is `jpg`. -/
theorem extOf_no_dot_and_dotfiles :
    (∀ name : String, '.' ∉ name.data →
      extOf name = String.mk (name.data.map Char.toLower)) ∧
    scanDir [.file "png"] = ["png"] ∧
    scanDir [.file ".jpg"] = [".jpg"] := by
  refine ⟨fun name h => ?_, by simp +decide [scanDir], by simp +decide [scanDir]⟩
  simp [extOf, splitOnChar_of_not_mem '.' name.data h]

/-- Closed witness for the general part of C10 at the concrete name
`png`: no dot occurs, and the extension is the whole name. -/
theorem extOf_no_dot_witness :
    ('.' ∉ "png".data) ∧ extOf "png" = String.mk ("png".data.map Char.toLower) :=
  ⟨by decide, extOf_no_dot_and_dotfiles.1 "png" (by decide)⟩

/-- Successful materialization keeps exactly the scanned names, in scan
order. -/
theorem materializeAll_names (getUrl : String → Option String) :
    ∀ ns assets, materializeAll getUrl ns = some assets →
      assets.map Asset.name = ns := by
  intro ns
  induction ns with
  | nil => intro assets h; simp [materializeAll] at h; simp [← h]
  | cons n ns ih =>
    intro assets h
    simp only [materializeAll] at h
    cases hu : getUrl n with
    | none => rw [hu] at h; simp at h
    | some u =>
      rw [hu] at h
      cases hr : materializeAll getUrl ns with
      | none => rw [hr] at h; simp at h
      | some rest =>
        rw [hr] at h
        simp only [Option.some.injEq] at h
        simp [← h, ih rest hr]

/-- Materialization succeeds exactly when every scanned entry
materializes. -/
theorem materializeAll_isSome_iff (getUrl : String → Option String) :
    ∀ ns, (materializeAll getUrl ns).isSome ↔ ∀ n ∈ ns, (getUrl n).isSome := by
  intro ns
  induction ns with
  | nil => simp [materializeAll]
  | cons n ns ih =>
    simp only [materializeAll]
    cases hu : getUrl n with
    | none => simp [hu]
    | some u =>
      cases hr : materializeAll getUrl ns with
      | none => simp [hr, ← ih]
      | some rest => simp [hr, ← ih, hu]

/-- C2. For a list of length `L` and a selected index `i < L`, `next`
maps `i` to `min (i+1) (L-1)` and `prev` maps `i` to `max (i-1) 0`;
repeated `next` from `L-1` stays at `L-1` and repeated `prev` from `0`
stays at `0`. -/
theorem nextPrev_clamped (L i : Nat) (h : i < L) :
    nextIndex L i = min (i + 1) (L - 1) ∧
    prevIndex i = max (i - 1) 0 ∧
    (∀ n : Nat, (nextIndex L)^[n] (L - 1) = L - 1) ∧
    (∀ n : Nat, prevIndex^[n] 0 = 0) := by
  refine ⟨?_, ?_, ?_, ?_⟩
  · unfold nextIndex; split <;> omega
  · unfold prevIndex; split <;> omega
  · intro n
    apply Function.iterate_fixed
    unfold nextIndex; split <;> omega
  · intro n
    apply Function.iterate_fixed
    unfold prevIndex; split <;> omega

/-- Closed witness for C2 with `L = 3`, `i = 1`. -/
theorem nextPrev_clamped_witness :
    (1 < 3) ∧
    (nextIndex 3 1 = min (1 + 1) (3 - 1) ∧
     prevIndex 1 = max (1 - 1) 0 ∧
     (∀ n : Nat, (nextIndex 3)^[n] (3 - 1) = 3 - 1) ∧
     (∀ n : Nat, prevIndex^[n] 0 = 0)) :=
  ⟨by decide, nextPrev_clamped 3 1 (by decide)⟩

/-- Fields of a successful `handleOpenFolder` run, as a function of the
pre-state: the new asset list is published, the previous list's URLs are
revoked, the zoom memory is cleared, `loading` ends false, no alert —
and `selectedIndex` is carried over unchanged (the handler never writes
it). -/
theorem handleOpenFolder_authorized_success (s : GState) (tree : List FsEntry)
    (getUrl : String → Option String) (assets : List Asset)
    (h : materializeAll getUrl (scanDir tree) = some assets) :
    handleOpenFolder s (.authorized tree getUrl) =
      ⟨{ images := assets, selectedIndex := s.selectedIndex,
         zoomStates := fun _ => none, viewer := s.viewer, loading := false,
         revoked := s.revoked ++ s.images.map Asset.url }, false⟩ := by
  simp only [handleOpenFolder, loadAfterAuth, replaceImages]
  rw [h]; simp

/-- Fields of a `handleOpenFolder` run that fails after authorization:
the asset list was already cleared (and its URLs revoked) before the
scan, so the failed load leaves an empty list and empty zoom memory,
with the alert fired and `loading` false. -/
theorem handleOpenFolder_authorized_failure (s : GState) (tree : List FsEntry)
    (getUrl : String → Option String)
    (h : materializeAll getUrl (scanDir tree) = none) :
    handleOpenFolder s (.authorized tree getUrl) =
      ⟨{ images := [], selectedIndex := s.selectedIndex,
         zoomStates := fun _ => none, viewer := s.viewer, loading := false,
         revoked := s.revoked ++ s.images.map Asset.url }, true⟩ := by
  simp only [handleOpenFolder, loadAfterAuth, replaceImages]
  rw [h]

theorem exScan : scanDir exTree = ["a.png", "b.jpg", "d.gif"] := by
  simp +decide [scanDir, exTree]

theorem exScan2 : scanDir exTree2 = ["z.png"] := by
  simp +decide [scanDir, exTree2]

theorem exMat : materializeAll exUrl (scanDir exTree) =
    some [⟨"a.png", "blob:a.png"⟩, ⟨"b.jpg", "blob:b.jpg"⟩,
          ⟨"d.gif", "blob:d.gif"⟩] := by
  rw [exScan]; rfl

/-- The fixture `exLoaded` is exactly the state reached by loading `exTree` from the
initial state. -/
theorem exLoaded_reachable :
    (handleOpenFolder initGState (.authorized exTree exUrl)).state = exLoaded := by
  rw [handleOpenFolder_authorized_success initGState exTree exUrl _ exMat]
  simp [initGState, exLoaded]

/-- C3. Round-trip of the zoom memory: if the viewer is at index `i`
with parameters `p`, then after navigating away via `next` or `prev`, a
subsequent `open(i)` initializes the viewer with `p` and not the
defaults; in particular the spec's scenario shape (`next` then `prev`)
lands back on `i` initialized with `p`. -/
theorem zoom_roundtrip (s : GState) (i : Nat) (p : ZoomState)
    (hsel : s.selectedIndex = some i) (hv : s.viewer = p) :
    initialStateOf (openImage (handleNext s) i) = p ∧
    initialStateOf (openImage (handlePrev s) i) = p ∧
    (i + 1 < s.images.length →
      (handlePrev (handleNext s)).selectedIndex = some i ∧
      initialStateOf (handlePrev (handleNext s)) = p) := by
  refine ⟨?_, ?_, fun hlen => ⟨?_, ?_⟩⟩
  · simp [handleNext, openImage, setIndex, saveCurrentState, initialStateOf, hsel, hv]
  · simp [handlePrev, openImage, setIndex, saveCurrentState, initialStateOf, hsel, hv]
  · simp [handleNext, handlePrev, setIndex, saveCurrentState, initialStateOf, hsel, hv,
      nextIndex, prevIndex, hlen]
  · simp [handleNext, handlePrev, setIndex, saveCurrentState, initialStateOf, hsel, hv,
      nextIndex, prevIndex, hlen]

/-- Closed witness for C3 at the fixture `exOpen` (index 0, parameters
`⟨3, 5, 7⟩`, three images). -/
theorem zoom_roundtrip_witness :
    (exOpen.selectedIndex = some 0 ∧ exOpen.viewer = ⟨3, 5, 7⟩) ∧
    (initialStateOf (openImage (handleNext exOpen) 0) = ⟨3, 5, 7⟩ ∧
     initialStateOf (openImage (handlePrev exOpen) 0) = ⟨3, 5, 7⟩ ∧
     (0 + 1 < exOpen.images.length →
       (handlePrev (handleNext exOpen)).selectedIndex = some 0 ∧
       initialStateOf (handlePrev (handleNext exOpen)) = ⟨3, 5, 7⟩)) :=
  ⟨⟨rfl, rfl⟩, zoom_roundtrip exOpen 0 ⟨3, 5, 7⟩ rfl rfl⟩

/-- Counterexample to C4 as stated: closing the viewer (close button or
Escape) does NOT write the zoom memory. At the reachable state `exOpen`
(index 0 selected, viewer parameters `⟨3, 5, 7⟩`, zoom memory empty),
after `close` the entry for index 0 is still absent, where the claim
requires it to have been created with the current parameters. -/
theorem close_does_not_save_cex :
    exOpen.selectedIndex = some 0 ∧ exOpen.viewer = ⟨3, 5, 7⟩ ∧
    (closeViewer exOpen).zoomStates 0 = none := by
  refine ⟨rfl, rfl, ?_⟩
  simp [closeViewer, setIndex, exOpen, setViewer, openImage, exLoaded]

/-- C4 as amended: the zoom-memory entry for the selected index `i` is
created/overwritten by `next` and by `prev` (which both save before
transitioning), while the close transition (close button or Escape)
leaves the zoom memory unchanged. -/
theorem save_on_nav_only (s : GState) (i : Nat) (p : ZoomState)
    (hsel : s.selectedIndex = some i) (hv : s.viewer = p) :
    (handleNext s).zoomStates i = some p ∧
    (handlePrev s).zoomStates i = some p ∧
    ∀ j, (closeViewer s).zoomStates j = s.zoomStates j := by
  refine ⟨?_, ?_, fun j => ?_⟩
  · simp [handleNext, setIndex, saveCurrentState, hsel, hv]
  · simp [handlePrev, setIndex, saveCurrentState, hsel, hv]
  · simp [closeViewer, setIndex]

/-- Closed witness for the amended C4 at the fixture `exOpen`. -/
theorem save_on_nav_only_witness :
    (exOpen.selectedIndex = some 0 ∧ exOpen.viewer = ⟨3, 5, 7⟩) ∧
    ((handleNext exOpen).zoomStates 0 = some ⟨3, 5, 7⟩ ∧
     (handlePrev exOpen).zoomStates 0 = some ⟨3, 5, 7⟩ ∧
     ∀ j, (closeViewer exOpen).zoomStates j = exOpen.zoomStates j) :=
  ⟨⟨rfl, rfl⟩, save_on_nav_only exOpen 0 ⟨3, 5, 7⟩ rfl rfl⟩

theorem exMat2 : materializeAll exUrl (scanDir exTree2) =
    some [⟨"z.png", "blob:z.png"⟩] := by
  rw [exScan2]; rfl

theorem exMatFail : materializeAll exUrlFail (scanDir exTree2) = none := by
  rw [exScan2]; rfl

/-- Counterexample to C5 as stated: a successful scan+materialize cycle
does NOT reset `selectedIndex` to `none` — `handleOpenFolder` never
writes it. From the reachable state `exViewing` (index 2 selected among
three assets), re-scanning `exTree2` succeeds with one asset yet leaves
`selectedIndex = some 2`. -/
theorem load_keeps_selection_cex :
    exViewing.selectedIndex = some 2 ∧
    (handleOpenFolder exViewing (.authorized exTree2 exUrl)).alerted = false ∧
    (handleOpenFolder exViewing (.authorized exTree2 exUrl)).state.images.length = 1 ∧
    (handleOpenFolder exViewing (.authorized exTree2 exUrl)).state.selectedIndex
      = some 2 := by
  rw [handleOpenFolder_authorized_success exViewing exTree2 exUrl _ exMat2]
  exact ⟨rfl, rfl, rfl, rfl⟩

/-- C5 as amended: after a successful scan+materialize cycle the store
holds exactly the N materialized entries (N = number of scanned
entries), every previous `displayRef` has been revoked, the zoom memory
is empty, and the busy flag is clear — but `selectedIndex` is carried
over unchanged from before the cycle (it is `none` afterwards only if
it was `none` before; the code never resets it). -/
theorem load_success_replaces_state (s : GState) (tree : List FsEntry)
    (getUrl : String → Option String) (assets : List Asset)
    (h : materializeAll getUrl (scanDir tree) = some assets) :
    (handleOpenFolder s (.authorized tree getUrl)).state.images = assets ∧
    (handleOpenFolder s (.authorized tree getUrl)).state.images.length
      = (scanDir tree).length ∧
    (∀ a ∈ s.images,
      a.url ∈ (handleOpenFolder s (.authorized tree getUrl)).state.revoked) ∧
    (∀ j, (handleOpenFolder s (.authorized tree getUrl)).state.zoomStates j = none) ∧
    (handleOpenFolder s (.authorized tree getUrl)).state.selectedIndex
      = s.selectedIndex ∧
    (handleOpenFolder s (.authorized tree getUrl)).state.loading = false := by
  have hlen : assets.length = (scanDir tree).length := by
    rw [← materializeAll_names getUrl (scanDir tree) assets h]
    simp
  rw [handleOpenFolder_authorized_success s tree getUrl assets h]
  refine ⟨rfl, hlen, fun a ha => ?_, fun j => rfl, rfl, rfl⟩
  exact List.mem_append_right _ (List.mem_map_of_mem _ ha)

/-- Closed witness for the amended C5: loading `exTree2` from
`exViewing`. -/
theorem load_success_replaces_state_witness :
    materializeAll exUrl (scanDir exTree2) = some [⟨"z.png", "blob:z.png"⟩] ∧
    ((handleOpenFolder exViewing (.authorized exTree2 exUrl)).state.images
        = [⟨"z.png", "blob:z.png"⟩] ∧
     (handleOpenFolder exViewing (.authorized exTree2 exUrl)).state.images.length
        = (scanDir exTree2).length ∧
     (∀ a ∈ exViewing.images,
        a.url ∈ (handleOpenFolder exViewing (.authorized exTree2 exUrl)).state.revoked) ∧
     (∀ j, (handleOpenFolder exViewing (.authorized exTree2 exUrl)).state.zoomStates j
        = none) ∧
     (handleOpenFolder exViewing (.authorized exTree2 exUrl)).state.selectedIndex
        = exViewing.selectedIndex ∧
     (handleOpenFolder exViewing (.authorized exTree2 exUrl)).state.loading = false) :=
  ⟨exMat2, load_success_replaces_state exViewing exTree2 exUrl _ exMat2⟩

/-- Counterexample to C6 as stated: the invariant is NOT preserved by a
directory scan that replaces the asset list. The reachable state
`exViewing` (index 2 of three assets) satisfies it, but after a
successful re-scan of `exTree2` (one asset) the selection is still
`some 2`, out of bounds. -/
theorem selInBounds_scan_cex :
    selInBounds exViewing ∧
    ¬ selInBounds (handleOpenFolder exViewing (.authorized exTree2 exUrl)).state := by
  constructor
  · intro i hi
    simp [exViewing, openImage, setIndex, exLoaded] at hi ⊢
    omega
  · rw [handleOpenFolder_authorized_success exViewing exTree2 exUrl _ exMat2]
    intro h
    simpa using h 2 rfl

/-- C6 as amended: the invariant `selectedIndex < length(assets)` (when
a selection exists) is preserved by `open(i)` for any rendered card
(`i < length`), by `next`, `prev`, `close`, and by pan/zoom parameter
changes; a scan that replaces the asset list preserves it provided no
image is selected when the scan completes (the code does not reset the
selection, so a scan finishing while the viewer is open may break it). -/
theorem selInBounds_preserved (s : GState) (i : Nat) (p : ZoomState)
    (o : LoadOutcome) (hInv : selInBounds s) :
    (i < s.images.length → selInBounds (openImage s i)) ∧
    selInBounds (handleNext s) ∧
    selInBounds (handlePrev s) ∧
    selInBounds (closeViewer s) ∧
    selInBounds (setViewer s p) ∧
    (s.selectedIndex = none → selInBounds (handleOpenFolder s o).state) := by
  refine ⟨fun hi k hk => ?_, fun k hk => ?_, fun k hk => ?_,
    fun k hk => ?_, fun k hk => ?_, fun hnone => ?_⟩
  · simp [openImage, setIndex] at hk ⊢
    omega
  · cases hsel : s.selectedIndex with
    | none => simp [handleNext, setIndex, saveCurrentState, hsel] at hk
    | some m =>
      have hm := hInv m hsel
      simp [handleNext, setIndex, saveCurrentState, hsel, nextIndex] at hk ⊢
      split at hk <;> omega
  · cases hsel : s.selectedIndex with
    | none => simp [handlePrev, setIndex, saveCurrentState, hsel] at hk
    | some m =>
      have hm := hInv m hsel
      simp [handlePrev, setIndex, saveCurrentState, hsel, prevIndex] at hk ⊢
      split at hk <;> omega
  · simp [closeViewer, setIndex] at hk
  · exact hInv k hk
  · cases o with
    | cancelled => intro j hj; simp [handleOpenFolder, hnone] at hj
    | unsupported => intro j hj; simp [handleOpenFolder, hnone] at hj
    | authorized tree getUrl =>
      intro j hj
      cases hm : materializeAll getUrl (scanDir tree) with
      | some assets =>
        rw [handleOpenFolder_authorized_success s tree getUrl assets hm] at hj
        simp [hnone] at hj
      | none =>
        rw [handleOpenFolder_authorized_failure s tree getUrl hm] at hj
        simp [hnone] at hj

/-- Closed witness for the amended C6 at the fixture `exLoaded`
(invariant holds there: nothing is selected). -/
theorem selInBounds_preserved_witness :
    selInBounds exLoaded ∧
    ((1 < exLoaded.images.length → selInBounds (openImage exLoaded 1)) ∧
     selInBounds (handleNext exLoaded) ∧
     selInBounds (handlePrev exLoaded) ∧
     selInBounds (closeViewer exLoaded) ∧
     selInBounds (setViewer exLoaded ⟨3, 5, 7⟩) ∧
     (exLoaded.selectedIndex = none →
       selInBounds (handleOpenFolder exLoaded LoadOutcome.cancelled).state)) :=
  ⟨fun i hi => by simp [exLoaded] at hi,
   selInBounds_preserved exLoaded 1 ⟨3, 5, 7⟩ LoadOutcome.cancelled
     (fun i hi => by simp [exLoaded] at hi)⟩

/-- Counterexample to C7 as stated: a load that fails after
authorization (here every materialization rejects) does NOT leave the
previous gallery state untouched. From the reachable state `exLoaded`
(three assets), the failed load ends with an empty asset list, because
`handleOpenFolder` clears `images` before scanning and the catch block
does not restore it. -/
theorem load_failure_not_atomic_cex :
    exLoaded.images ≠ [] ∧
    (handleOpenFolder exLoaded (.authorized exTree2 exUrlFail)).alerted = true ∧
    (handleOpenFolder exLoaded (.authorized exTree2 exUrlFail)).state.images = [] := by
  rw [handleOpenFolder_authorized_failure exLoaded exTree2 exUrlFail exMatFail]
  exact ⟨by simp [exLoaded], rfl, rfl⟩

/-- C7 as amended: on a failure before authorization (unsupported
platform / denied picker) the gallery state is untouched; on a failure
after authorization (scan or materialization) the visible asset list
and the zoom memory end empty — the previous list was cleared at load
start and is not restored. In both cases the busy indicator ends
cleared, the alert fires, and no half-populated list is visible. -/
theorem load_failure_behaviour (s : GState) (tree : List FsEntry)
    (getUrl : String → Option String)
    (hfail : materializeAll getUrl (scanDir tree) = none) :
    ((handleOpenFolder s .unsupported).state.images = s.images ∧
     (handleOpenFolder s .unsupported).state.selectedIndex = s.selectedIndex ∧
     (∀ j, (handleOpenFolder s .unsupported).state.zoomStates j = s.zoomStates j) ∧
     (handleOpenFolder s .unsupported).state.loading = false ∧
     (handleOpenFolder s .unsupported).alerted = true) ∧
    ((handleOpenFolder s (.authorized tree getUrl)).state.images = [] ∧
     (∀ j, (handleOpenFolder s (.authorized tree getUrl)).state.zoomStates j = none) ∧
     (handleOpenFolder s (.authorized tree getUrl)).state.loading = false ∧
     (handleOpenFolder s (.authorized tree getUrl)).alerted = true) := by
  rw [handleOpenFolder_authorized_failure s tree getUrl hfail]
  exact ⟨⟨rfl, rfl, fun j => rfl, rfl, rfl⟩, rfl, fun j => rfl, rfl, rfl⟩

/-- Closed witness for the amended C7: the failing load of `exTree2`
with every materialization rejecting, from `exLoaded`. -/
theorem load_failure_behaviour_witness :
    materializeAll exUrlFail (scanDir exTree2) = none ∧
    (((handleOpenFolder exLoaded .unsupported).state.images = exLoaded.images ∧
      (handleOpenFolder exLoaded .unsupported).state.selectedIndex
        = exLoaded.selectedIndex ∧
      (∀ j, (handleOpenFolder exLoaded .unsupported).state.zoomStates j
        = exLoaded.zoomStates j) ∧
      (handleOpenFolder exLoaded .unsupported).state.loading = false ∧
      (handleOpenFolder exLoaded .unsupported).alerted = true) ∧
     ((handleOpenFolder exLoaded (.authorized exTree2 exUrlFail)).state.images = [] ∧
      (∀ j, (handleOpenFolder exLoaded
          (.authorized exTree2 exUrlFail)).state.zoomStates j = none) ∧
      (handleOpenFolder exLoaded (.authorized exTree2 exUrlFail)).state.loading
        = false ∧
      (handleOpenFolder exLoaded (.authorized exTree2 exUrlFail)).alerted = true)) :=
  ⟨exMatFail, load_failure_behaviour exLoaded exTree2 exUrlFail exMatFail⟩

/-- C8. A cancelled directory prompt (`AbortError`) is a silent no-op:
no alert fires, the asset list, selection, zoom memory, viewer
parameters and revocation log are all unchanged, and the busy indicator
ends cleared (the picker is awaited before `setLoading(true)`, so it
was never set). -/
theorem cancel_silent_noop (s : GState) :
    (handleOpenFolder s .cancelled).alerted = false ∧
    (handleOpenFolder s .cancelled).state.images = s.images ∧
    (handleOpenFolder s .cancelled).state.selectedIndex = s.selectedIndex ∧
    (∀ j, (handleOpenFolder s .cancelled).state.zoomStates j = s.zoomStates j) ∧
    (handleOpenFolder s .cancelled).state.viewer = s.viewer ∧
    (handleOpenFolder s .cancelled).state.revoked = s.revoked ∧
    (handleOpenFolder s .cancelled).state.loading = false :=
  ⟨rfl, rfl, rfl, fun _ => rfl, rfl, rfl, rfl⟩

/-- C9. The published asset list preserves the scanner's discovery
order: when every materialization resolves, the load publishes a list
whose names are exactly the scanned names in scan order; when any one
materialization rejects, the whole batch rejects and no materialized
list is published (the visible list is the empty one from the
pre-scan clear). -/
theorem load_publishes_in_scan_order (s : GState) (tree : List FsEntry)
    (getUrl : String → Option String) :
    ((∀ n ∈ scanDir tree, (getUrl n).isSome) →
      ∃ assets, materializeAll getUrl (scanDir tree) = some assets ∧
        (handleOpenFolder s (.authorized tree getUrl)).state.images = assets ∧
        assets.map Asset.name = scanDir tree ∧
        (handleOpenFolder s (.authorized tree getUrl)).alerted = false) ∧
    ((∃ n ∈ scanDir tree, getUrl n = none) →
      materializeAll getUrl (scanDir tree) = none ∧
      (handleOpenFolder s (.authorized tree getUrl)).state.images = [] ∧
      (handleOpenFolder s (.authorized tree getUrl)).alerted = true) := by
  constructor
  · intro hall
    obtain ⟨assets, hm⟩ := Option.isSome_iff_exists.mp
      ((materializeAll_isSome_iff getUrl (scanDir tree)).mpr hall)
    refine ⟨assets, hm, ?_, materializeAll_names getUrl (scanDir tree) assets hm, ?_⟩ <;>
      rw [handleOpenFolder_authorized_success s tree getUrl assets hm]
  · rintro ⟨n, hn, hnone⟩
    have hm : materializeAll getUrl (scanDir tree) = none := by
      have : ¬ (materializeAll getUrl (scanDir tree)).isSome = true := by
        rw [materializeAll_isSome_iff]
        push_neg
        exact ⟨n, hn, by simp [hnone]⟩
      simpa [Option.not_isSome_iff_eq_none] using this
    refine ⟨hm, ?_, ?_⟩ <;>
      rw [handleOpenFolder_authorized_failure s tree getUrl hm]

/-- Closed witness for C9: loading `exTree` (all materializations
resolve) from the initial state. -/
theorem load_publishes_in_scan_order_witness :
    (∀ n ∈ scanDir exTree, (exUrl n).isSome) ∧
    (∃ assets, materializeAll exUrl (scanDir exTree) = some assets ∧
      (handleOpenFolder initGState (.authorized exTree exUrl)).state.images = assets ∧
      assets.map Asset.name = scanDir exTree ∧
      (handleOpenFolder initGState (.authorized exTree exUrl)).alerted = false) :=
  ⟨by rw [exScan]; intro n hn; simp [exUrl],
   (load_publishes_in_scan_order initGState exTree exUrl).1
     (by rw [exScan]; intro n hn; simp [exUrl])⟩
